import Mathlib

/-!
Shallow embedding of the Slate-based preconditioners in
`firedrake/slate/preconditioners.py`: the symbolic element-local tensor
algebra built by `HybridStaticCondensationPC` and `HybridizationPC`
(operator overloading over `Tensor`, `AssembledVector`), the validation and
construction performed by `initialize`, the straight-line control flow of
`apply`/`update`/`applyTranspose`, and the nullspace transfer in
`create_schur_nullspace`.  Every definition below is transcribed from the
source; abbreviations: "SC" = `HybridStaticCondensationPC`, "hyb" =
`HybridizationPC`.
-/

/-- Integration measures appearing in the UFL forms built by the source
(`ufl.dx`, `ufl.dS`, `ufl.dS_h`, `ufl.dS_v`). -/
inductive Measure where
  | dx
  | dS
  | dS_h
  | dS_v
  deriving DecidableEq, Repr

/-- UFL-level bilinear forms appearing as leaves of Slate `Tensor` nodes.

* `subBlock rows cols` embeds `splitter.split(self.cxt.a, (rows, cols))`
  (a bare index in the source means the singleton list);
* `brokenReplace` embeds `replace(self.cxt.a, arg_map)` where `arg_map`
  swaps the arguments for broken-space arguments (line 337-339);
* `jumpCoupling ms` embeds the sum over `ms` of
  `gammar(+) * ufl.jump(sigma, n) * m`, with `sigma` the H(div) trial
  component of the broken space (lines 351-355);
* `splitMixed i j` embeds `split_form(Atilde.form)[(i, j)]`;
* `splitTrace i j` embeds `split_form(K.form)[(i, j)]`. -/
inductive Form where
  | subBlock (rows cols : List Nat)
  | brokenReplace
  | jumpCoupling (measures : List Measure)
  | splitMixed (i j : Nat)
  | splitTrace (i j : Nat)
  deriving DecidableEq, Repr

/-- Symbolic Slate tensor expressions.  Constructing a node performs no
numeric work; `inv` is the per-element dense inverse `T.inv`, `transpose`
is `T.T`, and `assembledVector fn comp` is `AssembledVector(f)` for the
function named `fn` (with `comp = some i` when `f` is the i-th component
of a split mixed function). -/
inductive SlateExpr where
  | tensor (f : Form)
  | assembledVector (fn : String) (comp : Option Nat)
  | add (a b : SlateExpr)
  | sub (a b : SlateExpr)
  | mul (a b : SlateExpr)
  | neg (a : SlateExpr)
  | transpose (a : SlateExpr)
  | inv (a : SlateExpr)
  deriving DecidableEq, Repr

/-- `occursIn p e` holds when `p` occurs as a subexpression of `e`. -/
def occursIn (p : SlateExpr) (e : SlateExpr) : Bool :=
  p == e ||
  match e with
  | .add a b | .sub a b | .mul a b => occursIn p a || occursIn p b
  | .neg a | .transpose a | .inv a => occursIn p a
  | _ => false

/-- The list of operands of all `inv` nodes of an expression: the
element-local tensors that get densely inverted when the expression is
compiled. -/
def invertedSubterms : SlateExpr → List SlateExpr
  | .add a b | .sub a b | .mul a b => invertedSubterms a ++ invertedSubterms b
  | .neg a | .transpose a => invertedSubterms a
  | .inv a => a :: invertedSubterms a
  | _ => []

/-! ## Static-condensation symbolic expressions (lines 60-181) -/

/-- `M = Tensor(splitter.split(self.cxt.a, ((0, 1), (0, 1))))` (line 67). -/
def scM : SlateExpr := .tensor (.subBlock [0, 1] [0, 1])

/-- `K = Tensor(splitter.split(self.cxt.a, ((0, 1), (2,))))` (line 74). -/
def scK : SlateExpr := .tensor (.subBlock [0, 1] [2])

/-- `L = Tensor(splitter.split(self.cxt.a, ((2,), (0, 1))))` (line 80). -/
def scL : SlateExpr := .tensor (.subBlock [2] [0, 1])

/-- `J = Tensor(splitter.split(self.cxt.a, (2, 2)))` (line 84). -/
def scJ : SlateExpr := .tensor (.subBlock [2] [2])

/-- `S = J - L * M.inv * K` (line 87), with Python left-associated `*`. -/
def scS : SlateExpr := .sub scJ (.mul (.mul scL (.inv scM)) scK)

/-- `A = Tensor(splitter.split(self.cxt.a, (0, 0)))` (line 134). -/
def scA : SlateExpr := .tensor (.subBlock [0] [0])

/-- `B = Tensor(splitter.split(self.cxt.a, (0, 1)))` (line 135). -/
def scB : SlateExpr := .tensor (.subBlock [0] [1])

/-- `C = Tensor(splitter.split(self.cxt.a, (0, 2)))` (line 136). -/
def scC : SlateExpr := .tensor (.subBlock [0] [2])

/-- `D = Tensor(splitter.split(self.cxt.a, (1, 0)))` (line 137). -/
def scD : SlateExpr := .tensor (.subBlock [1] [0])

/-- `E = Tensor(splitter.split(self.cxt.a, (1, 1)))` (line 138). -/
def scE : SlateExpr := .tensor (.subBlock [1] [1])

/-- `F = Tensor(splitter.split(self.cxt.a, (1, 2)))` (line 139). -/
def scF : SlateExpr := .tensor (.subBlock [1] [2])

/-- `Se = E - D * A.inv * B` (line 140). -/
def scSe : SlateExpr := .sub scE (.mul (.mul scD (.inv scA)) scB)

/-- `Sf = F - D * A.inv * C` (line 141). -/
def scSf : SlateExpr := .sub scF (.mul (.mul scD (.inv scA)) scC)

/-- `AssembledVector(v1)`: component 0 of `self.residual` (line 149). -/
def avV1 : SlateExpr := .assembledVector "residual" (some 0)

/-- `AssembledVector(v2)`: component 1 of `self.residual` (line 149). -/
def avV2 : SlateExpr := .assembledVector "residual" (some 1)

/-- `AssembledVector(lambda_h)`: component 2 of `self.solution` (line 165). -/
def avLambda : SlateExpr := .assembledVector "solution" (some 2)

/-- `AssembledVector(u_h)`: component 1 of `self.solution` (line 165). -/
def avU : SlateExpr := .assembledVector "solution" (some 1)

/-- `r_lambda_thunk = -L * M.inv * AssembledVector(v1v2)` (line 158); the
function `v1v2` shares the retained-space components `(v1, v2)` of the
residual. -/
def scRhsThunk : SlateExpr :=
  .mul (.mul (.neg scL) (.inv scM)) (.assembledVector "v1v2" none)

/-- The expression assembled into `u_h` (lines 169-171):
`Se.inv * (AssembledVector(v2) - D * A.inv * AssembledVector(v1)
 - Sf * AssembledVector(lambda_h))`. -/
def scUExpr : SlateExpr :=
  .mul (.inv scSe)
    (.sub (.sub avV2 (.mul (.mul scD (.inv scA)) avV1)) (.mul scSf avLambda))

/-- The expression assembled into `q_h` (lines 177-179):
`A.inv * (AssembledVector(v1) - B * AssembledVector(u_h)
 - C * AssembledVector(lambda_h))`. -/
def scQExpr : SlateExpr :=
  .mul (.inv scA) (.sub (.sub avV1 (.mul scB avU)) (.mul scC avLambda))

/-! ## Hybridization symbolic expressions (lines 334-484) -/

/-- `Atilde = Tensor(replace(self.cxt.a, arg_map))` (line 339). -/
def hybAtilde : SlateExpr := .tensor .brokenReplace

/-- The trace coupling tensor `K` (lines 347-355): on an extruded mesh the
jump form is integrated over `dS_h` plus `dS_v`, otherwise over `dS`. -/
def hybK (extruded : Bool) : SlateExpr :=
  if extruded then .tensor (.jumpCoupling [.dS_h, .dS_v])
  else .tensor (.jumpCoupling [.dS])

/-- `schur_comp = K * Atilde.inv * K.T` (line 369). -/
def hybSchurComp (extruded : Bool) : SlateExpr :=
  .mul (.mul (hybK extruded) (.inv hybAtilde)) (.transpose (hybK extruded))

/-- The reduced right-hand-side expression
`K * Atilde.inv * AssembledVector(self.broken_residual)` (line 365). -/
def hybSrhs (extruded : Bool) : SlateExpr :=
  .mul (.mul (hybK extruded) (.inv hybAtilde))
    (.assembledVector "broken_residual" none)

/-- The operator handed to `create_schur_nullspace`: `-K * Atilde`
(line 382), i.e. `(-K) * Atilde` under Python precedence. -/
def hybNsForward (extruded : Bool) : SlateExpr :=
  .mul (.neg (hybK extruded)) hybAtilde

/-- `u_rec = M.inv * (f - C * A.inv * g - R * lambdar)` with
`M = D - C * A.inv * B` and `R = K_1.T - C * A.inv * K_0.T`
(`_reconstruction_calls`, lines 458-476); `id0 = vidx`, `id1 = pidx`. -/
def hybURec (vidx pidx : Nat) : SlateExpr :=
  let A := SlateExpr.tensor (Form.splitMixed vidx vidx)
  let B := SlateExpr.tensor (Form.splitMixed vidx pidx)
  let C := SlateExpr.tensor (Form.splitMixed pidx vidx)
  let D := SlateExpr.tensor (Form.splitMixed pidx pidx)
  let K0 := SlateExpr.tensor (Form.splitTrace 0 vidx)
  let K1 := SlateExpr.tensor (Form.splitTrace 0 pidx)
  let g := SlateExpr.assembledVector "broken_residual" (some vidx)
  let f := SlateExpr.assembledVector "broken_residual" (some pidx)
  let lambdar := SlateExpr.assembledVector "trace_solution" none
  let M := SlateExpr.sub D (SlateExpr.mul (SlateExpr.mul C (SlateExpr.inv A)) B)
  let R := SlateExpr.sub (SlateExpr.transpose K1)
    (SlateExpr.mul (SlateExpr.mul C (SlateExpr.inv A)) (SlateExpr.transpose K0))
  SlateExpr.mul (SlateExpr.inv M)
    (SlateExpr.sub
      (SlateExpr.sub f (SlateExpr.mul (SlateExpr.mul C (SlateExpr.inv A)) g))
      (SlateExpr.mul R lambdar))

/-- `sigma_rec = A.inv * (g - B * AssembledVector(u) - K_0.T * lambdar)`
(line 481); `u` is component `pidx` of `self.broken_solution`. -/
def hybSigmaRec (vidx pidx : Nat) : SlateExpr :=
  let A := SlateExpr.tensor (Form.splitMixed vidx vidx)
  let B := SlateExpr.tensor (Form.splitMixed vidx pidx)
  let K0 := SlateExpr.tensor (Form.splitTrace 0 vidx)
  let g := SlateExpr.assembledVector "broken_residual" (some vidx)
  let lambdar := SlateExpr.assembledVector "trace_solution" none
  SlateExpr.mul (SlateExpr.inv A)
    (SlateExpr.sub
      (SlateExpr.sub g
        (SlateExpr.mul B (SlateExpr.assembledVector "broken_solution" (some pidx))))
      (SlateExpr.mul (SlateExpr.transpose K0) lambdar))

/-! ## Boundary conditions, elements and initialize-time validation -/

/-- The argument of a Dirichlet boundary condition: a `Function`, a
constant, or the result of interpolating a `Function` into the duplicated
trace space (line 105). -/
inductive BCArg where
  | func (name : String)
  | interpolated (name : String)
  | const (c : Int)
  deriving DecidableEq, Repr

/-- A Dirichlet boundary condition: the function space it lives on (spaces
are identified by name in this embedding), its boundary value, and its
subdomain marker. -/
structure BC where
  space : String
  arg : BCArg
  subdomain : String
  deriving DecidableEq, Repr

/-- The fixed homogeneous trace boundary conditions built by
`HybridizationPC.initialize` (lines 347-354): `on_boundary` always, plus
`bottom` and `top` on extruded meshes. -/
def hybTraceBCs (extruded : Bool) : List BC :=
  if extruded then
    [⟨"TraceSpace", BCArg.const 0, "on_boundary"⟩,
     ⟨"TraceSpace", BCArg.const 0, "bottom"⟩,
     ⟨"TraceSpace", BCArg.const 0, "top"⟩]
  else
    [⟨"TraceSpace", BCArg.const 0, "on_boundary"⟩]

/-- A UFL element degree: a plain integer, or the `(horizontal, vertical)`
tuple of a tensor-product element. -/
inductive Degree where
  | single (n : Int)
  | pair (h v : Int)
  deriving DecidableEq, Repr

/-- The data of `Vi.ufl_element()` inspected by `initialize`: family,
Sobolev-space name, value shape (empty for scalar elements), and degree. -/
structure UflElem where
  family : String
  sobolev : String
  valueShape : List Nat
  degree : Degree
  deriving DecidableEq, Repr

/-- The trace-space degree computation of `HybridizationPC.initialize`
(lines 283-291): the degree itself for Brezzi-Douglas-Marini, else
`(h - 1, v - 1)` when unpacking the degree as a 2-tuple succeeds, else
`degree - 1` (the `TypeError` branch). -/
def traceDegree (family : String) (d : Degree) : Degree :=
  if family = "Brezzi-Douglas-Marini" then d
  else
    match d with
    | Degree.pair h v => Degree.pair (h - 1) (v - 1)
    | Degree.single n => Degree.single (n - 1)

/-- The fatal errors `initialize` can raise: `ValueError` for a context
that is not an `ImplicitMatrixContext` (lines 40-41, 259-260),
`RuntimeError`/`ValueError` for a wrong number of component spaces
(lines 46-47, 267-268), the `assert` on the trace element family
(line 51), `ValueError` when both spaces are vector valued (lines
270-271), the `assert` on the Sobolev space in the role-assignment loop
(line 278), the `assert` that a supplied BC lives on the trace space
(lines 101-103), and the `AttributeError` raised when a role index was
never assigned. -/
inductive InitError where
  | notImplicitContext
  | wrongSpaceCount
  | traceFamilyAssert
  | bothVectorValued
  | sobolevAssert
  | bcSpaceAssert
  | attrError
  deriving DecidableEq, Repr

/-- `true` exactly on `Except.error`. -/
def isErr : Except InitError α → Bool
  | Except.error _ => true
  | Except.ok _ => false

/-- The role-assignment loop of `HybridizationPC.initialize`
(lines 274-279): `for i, Vi in enumerate(V)`, setting `vidx := i` when the
Sobolev space is `HDiv`, otherwise asserting it is `L2` and setting
`pidx := i`.  `i` is the running index. -/
def assignRolesAux : Nat → List UflElem → (Option Nat × Option Nat) →
    Except InitError (Option Nat × Option Nat)
  | _, [], acc => Except.ok acc
  | i, Vi :: rest, acc =>
      if Vi.sobolev = "HDiv" then assignRolesAux (i + 1) rest (some i, acc.2)
      else if Vi.sobolev = "L2" then assignRolesAux (i + 1) rest (acc.1, some i)
      else Except.error InitError.sobolevAssert

/-- The full role-assignment loop started at index 0 with neither role
assigned. -/
def assignRoles (V : List UflElem) : Except InitError (Option Nat × Option Nat) :=
  assignRolesAux 0 V (none, none)

/-- The transfer of a supplied boundary value onto the duplicated trace
space (lines 104-108): a `Function` argument is interpolated, a constant
is kept as is. -/
def transferBCArg : BCArg → BCArg
  | BCArg.func n => BCArg.interpolated n
  | a => a

/-- The BC loop of `HybridStaticCondensationPC.initialize` (lines
100-109): each supplied BC must live on the trace space `T` (identified
here by the name `"trace"`), and is re-imposed on the duplicated trace
space `Tr` with its transferred argument and the same subdomain. -/
def scProcessBCs : List BC → Except InitError (List BC)
  | [] => Except.ok []
  | bc :: rest =>
      if bc.space = "trace" then
        match scProcessBCs rest with
        | Except.ok tl =>
            Except.ok ({ space := "Tr", arg := transferBCArg bc.arg,
                         subdomain := bc.subdomain } :: tl)
        | Except.error e => Except.error e
      else Except.error InitError.bcSpaceAssert

/-- The persistent symbolic data produced by
`HybridStaticCondensationPC.initialize`. -/
structure SCSetup where
  warned : Bool
  traceBCs : List BC
  Sexpr : SlateExpr
  SassembleBCs : List BC
  rhsThunkExpr : SlateExpr
  uExpr : SlateExpr
  qExpr : SlateExpr
  deriving DecidableEq, Repr

/-- `HybridStaticCondensationPC.initialize` (lines 25-181): context check,
three-space check, trace-family assert, BC warning and processing, then
construction of the symbolic expressions defined above.  `warned` records
whether the BC advisory was logged (line 97-99). -/
def scSetup (isImplicit : Bool) (W : List UflElem) (cxtBCs : List BC) :
    Except InitError SCSetup :=
  if isImplicit = false then Except.error InitError.notImplicitContext
  else
    match W with
    | [_, _, w2] =>
      if w2.family = "HDiv Trace" then
        match scProcessBCs cxtBCs with
        | Except.ok tbcs =>
            Except.ok { warned := !cxtBCs.isEmpty, traceBCs := tbcs,
                        Sexpr := scS, SassembleBCs := tbcs,
                        rhsThunkExpr := scRhsThunk,
                        uExpr := scUExpr, qExpr := scQExpr }
        | Except.error e => Except.error e
      else Except.error InitError.traceFamilyAssert
    | _ => Except.error InitError.wrongSpaceCount

/-- The persistent symbolic data produced by
`HybridizationPC.initialize`. -/
structure HybSetup where
  vidx : Nat
  pidx : Nat
  traceFamily : String
  tdeg : Degree
  Atilde : SlateExpr
  Kexpr : SlateExpr
  warned : Bool
  SrhsExpr : SlateExpr
  Sexpr : SlateExpr
  SassembleBCs : List BC
  nsForward : SlateExpr
  uRec : SlateExpr
  sigmaRec : SlateExpr
  deriving DecidableEq, Repr

/-- `HybridizationPC.initialize` (lines 239-439): context check, two-space
check, the `all(value_shape)` check, role assignment, trace-space
construction (`FunctionSpace(mesh, "HDiv Trace", tdegree)`), the symbolic
Schur reduction, trace BCs, BC warning, nullspace forward operator and the
reconstruction expressions. -/
def hybSetup (isImplicit : Bool) (V : List UflElem) (rowBCs : List BC)
    (extruded : Bool) : Except InitError HybSetup :=
  if isImplicit = false then Except.error InitError.notImplicitContext
  else if V.length ≠ 2 then Except.error InitError.wrongSpaceCount
  else if V.all (fun Vi => !Vi.valueShape.isEmpty) then
    Except.error InitError.bothVectorValued
  else
    match assignRoles V with
    | Except.error e => Except.error e
    | Except.ok (some vidx, some pidx) =>
        match V[vidx]? with
        | some Wv =>
            Except.ok { vidx := vidx, pidx := pidx,
                        traceFamily := "HDiv Trace",
                        tdeg := traceDegree Wv.family Wv.degree,
                        Atilde := hybAtilde,
                        Kexpr := hybK extruded,
                        warned := !rowBCs.isEmpty,
                        SrhsExpr := hybSrhs extruded,
                        Sexpr := hybSchurComp extruded,
                        SassembleBCs := hybTraceBCs extruded,
                        nsForward := hybNsForward extruded,
                        uRec := hybURec vidx pidx,
                        sigmaRec := hybSigmaRec vidx pidx }
        | none => Except.error InitError.attrError
    | Except.ok _ => Except.error InitError.attrError

/-! ## Operational model of apply / update / applyTranspose

Degree-of-freedom vectors are `List Int`; the numeric collaborators
(element-kernel evaluation of a Slate expression, UFL form assembly, the
PETSc KSP solves, the averaging projector) are parameters, since they are
external services from the point of view of this module.  An environment
`FEnv` maps a function name (and optional split component) to its current
dof values; `AssembledVector` leaves read from it. -/

abbrev Vec := List Int

abbrev FEnv := String → Option Nat → Vec

/-- Componentwise vector addition, for
`self.r_lambda.assign(self.residual.split()[2] + self.r_lambda_thunk)`
(lines 201-202). -/
def vadd (a b : Vec) : Vec := List.zipWith (fun x y => x + y) a b

/-- One observable step of an `apply` call, in execution order. -/
inductive Step where
  | copyIn
  | datCopy (src dst : String)
  | kspSolve (name : String)
  | assembleSlate (e : SlateExpr) (target : String)
  | assembleForm (form target : String)
  | assignAdd (target : String)
  | projectAvg
  | copyOut
  deriving DecidableEq, Repr

/-- The external numeric services used by `HybridStaticCondensationPC`:
Slate expression evaluation, and the trace KSP solve with nonzero
(`solveNZ`, taking the current iterate) or zero (`solveZ`) initial
guess. -/
structure SCOps where
  evalV : SlateExpr → FEnv → Vec
  solveNZ : Int → Vec → Vec → Vec
  solveZ : Int → Vec → Vec

/-- The persistent numeric state of `HybridStaticCondensationPC` between
calls: a coefficient-state stamp, the assembled values of the reduced
matrix `self.S`, the trace KSP initial-guess flag, and the trace component
of `self.solution` (read as the initial iterate when the flag is set). -/
structure SCState where
  coeffs : Nat
  Smat : Int
  guessNonzero : Bool
  lamPrev : Vec
  deriving DecidableEq, Repr

/-- The function environment visible to the SC expressions during `apply`:
the three residual components, the concatenated retained-space residual
`v1v2` (a `MixedDat` over `(v1, v2)`, line 156-157), and the solution
components written so far. -/
def scEnv (v1 v2 v3 u lam : Vec) : FEnv := fun n c =>
  match n, c with
  | "residual", some 0 => v1
  | "residual", some 1 => v2
  | "residual", some 2 => v3
  | "v1v2", none => v1 ++ v2
  | "solution", some 1 => u
  | "solution", some 2 => lam
  | _, _ => []

/-- The step sequence of `HybridStaticCondensationPC.apply`
(lines 190-220). -/
def scApplySteps : List Step :=
  [Step.copyIn,
   Step.assembleSlate scRhsThunk "r_lambda_thunk",
   Step.assignAdd "r_lambda",
   Step.kspSolve "trace",
   Step.assembleSlate scUExpr "u_h",
   Step.assembleSlate scQExpr "q_h",
   Step.copyOut]

/-- `HybridStaticCondensationPC.apply` (lines 190-220): copy `x` into the
residual, assemble the RHS thunk from its symbolic expression, form
`r_lambda = v3 + thunk`, solve the trace system (respecting the
initial-guess flag), assemble `u_h` then `q_h`, and copy the solution
`(q_h, u_h, lambda_h)` into `y`.  The input is the residual split
`(x1, x2, x3)`; the result is the final `y` split plus the executed
steps. -/
def scApply (ops : SCOps) (st : SCState) (x1 x2 x3 : Vec) :
    (Vec × Vec × Vec) × List Step :=
  let rthunk := ops.evalV scRhsThunk (scEnv x1 x2 x3 [] [])
  let rlam := vadd x3 rthunk
  let lam := if st.guessNonzero then ops.solveNZ st.Smat rlam st.lamPrev
             else ops.solveZ st.Smat rlam
  let u := ops.evalV scUExpr (scEnv x1 x2 x3 [] lam)
  let q := ops.evalV scQExpr (scEnv x1 x2 x3 u lam)
  ((q, u, lam), scApplySteps)

/-- `HybridStaticCondensationPC.update` (lines 183-188): re-evaluate the
reduced operator values from the same symbolic expression `scS` at the
current coefficient state; nothing else changes.  `evM` is the
deterministic assembly service. -/
def scUpdate (evM : SlateExpr → Nat → Int) (st : SCState) : SCState :=
  { st with Smat := evM scS st.coeffs }

/-- The error carried by `raise NotImplementedError(...)`. -/
inductive PCError where
  | notImplemented (msg : String)
  deriving DecidableEq, Repr

/-- `HybridStaticCondensationPC.applyTranspose` (lines 222-225): raises
before touching `y`; an `Except.ok` value would carry the written output
vector, and is never produced. -/
def scApplyTranspose (_x _y : Vec) : Except PCError Vec :=
  Except.error (PCError.notImplemented "Transpose application is not implemented.")

/-- `HybridizationPC.applyTranspose` (lines 576-578). -/
def hybApplyTranspose (_x _y : Vec) : Except PCError Vec :=
  Except.error
    (PCError.notImplemented "The transpose application is not implemented.")

/-- The external numeric services used by `HybridizationPC`: Slate
evaluation, UFL linear-form assembly (by form name), the H(div) mass
solve, the trace solve (nonzero / zero initial guess), the projection
solve, and the averaging projector. -/
structure HybOps where
  evalV : SlateExpr → FEnv → Vec
  evalF : String → FEnv → Vec
  massSolve : Int → Vec → Vec
  solveNZ : Int → Vec → Vec → Vec
  solveZ : Int → Vec → Vec
  projSolve : Int → Vec → Vec
  average : Vec → Vec

/-- The persistent numeric state of `HybridizationPC` between calls. -/
structure HybState where
  coeffs : Nat
  Smat : Int
  Mmat : Int
  guessNonzero : Bool
  lamPrev : Vec
  method : String
  vidx : Nat
  pidx : Nat
  extruded : Bool
  deriving DecidableEq, Repr

/-- The function environment visible to the hybridization expressions
during `apply`: the broken residual components (by split index), the
broken solution components, the trace solution and `self._primal_r`. -/
def hybEnv (br0 br1 sol0 sol1 lam primal : Vec) : FEnv := fun n c =>
  match n, c with
  | "broken_residual", none => br0 ++ br1
  | "broken_residual", some 0 => br0
  | "broken_residual", some 1 => br1
  | "broken_solution", some 0 => sol0
  | "broken_solution", some 1 => sol1
  | "trace_solution", none => lam
  | "primal_r", none => primal
  | _, _ => []

/-- The step sequence of `HybridizationPC.apply` (lines 506-574); the tail
depends on the configured projection method (lines 563-571). -/
def hybApplySteps (st : HybState) : List Step :=
  [Step.copyIn,
   Step.datCopy "unbroken_residual_scalar" "broken_residual_scalar",
   Step.kspSolve "hdiv_mass",
   Step.assembleForm "broken_hdiv_residual" "broken_residual_hdiv",
   Step.assembleSlate (hybSrhs st.extruded) "schur_rhs",
   Step.kspSolve "trace",
   Step.assembleSlate (hybURec st.vidx st.pidx) "broken_solution_scalar",
   Step.assembleSlate (hybSigmaRec st.vidx st.pidx) "broken_solution_hdiv",
   Step.datCopy "broken_solution_scalar" "unbroken_solution_scalar"] ++
  (if st.method = "average" then [Step.projectAvg]
   else [Step.assembleForm "projection_rhs" "projection_rhs",
         Step.kspSolve "hdiv_projection"]) ++
  [Step.copyOut]

/-- `HybridizationPC.apply` (lines 506-574): copy `x` into the unbroken
residual; copy the (already discontinuous) scalar component into the
broken residual; mass-solve the H(div) residual into `_primal_r`; assemble
the broken H(div) residual; assemble `schur_rhs` from its symbolic
expression; solve the trace system; run the two reconstruction assemblies;
copy the broken scalar solution across; project the broken H(div) solution
(averaging or L2 mass solve per `self._method`); copy the result into
`y`.  `(x0, x1)` is the unbroken residual split by component index. -/
def hybApply (ops : HybOps) (st : HybState) (x0 x1 : Vec) :
    (Vec × Vec) × List Step :=
  let urv := if st.vidx = 0 then x0 else x1
  let brp := if st.pidx = 0 then x0 else x1
  let primal := ops.massSolve st.Mmat urv
  let brv := ops.evalF "broken_hdiv_residual" (hybEnv [] [] [] [] [] primal)
  let br0 := if st.vidx = 0 then brv else brp
  let br1 := if st.vidx = 0 then brp else brv
  let srhs := ops.evalV (hybSrhs st.extruded) (hybEnv br0 br1 [] [] [] primal)
  let lam := if st.guessNonzero then ops.solveNZ st.Smat srhs st.lamPrev
             else ops.solveZ st.Smat srhs
  let u := ops.evalV (hybURec st.vidx st.pidx) (hybEnv br0 br1 [] [] lam primal)
  let sol0 := if st.pidx = 0 then u else []
  let sol1 := if st.pidx = 1 then u else []
  let sigma := ops.evalV (hybSigmaRec st.vidx st.pidx)
    (hybEnv br0 br1 sol0 sol1 lam primal)
  let s0 := if st.vidx = 0 then sigma else if st.pidx = 0 then u else []
  let s1 := if st.vidx = 1 then sigma else if st.pidx = 1 then u else []
  let sigmaConf :=
    if st.method = "average" then ops.average sigma
    else ops.projSolve st.Mmat
      (ops.evalF "projection_rhs" (hybEnv br0 br1 s0 s1 lam primal))
  let y0 := if st.vidx = 0 then sigmaConf else u
  let y1 := if st.vidx = 0 then u else sigmaConf
  ((y0, y1), hybApplySteps st)

/-- `HybridizationPC.update` (lines 498-504): re-evaluate the reduced
operator values from the same symbolic expression at the current
coefficient state; nothing else changes. -/
def hybUpdate (evM : SlateExpr → Nat → Int) (st : HybState) : HybState :=
  { st with Smat := evM (hybSchurComp st.extruded) st.coeffs }

/-- `create_schur_nullspace` (lines 605-645): return `None` when the
nullspace handle is zero; otherwise, for each basis vector, copy it into
the unbroken space (the identity on its dof values here), project it into
the broken space, evaluate `forward * AssembledVector(tmp_b)`, and finally
normalize every transferred vector. -/
def createSchurNullspace (handleZero : Bool) (vecs : List Vec)
    (projectB : Vec → Vec) (applyFwd : SlateExpr → Vec → Vec)
    (normalize : Vec → Vec) (forward : SlateExpr) : Option (List Vec) :=
  if handleZero then none
  else some ((vecs.map (fun v => applyFwd forward (projectB v))).map normalize)

/-- Whether `initialize` attaches a nullspace to the reduced matrix
(lines 385-386): exactly when `create_schur_nullspace` returned one. -/
def hybNullspaceAttached (handleZero : Bool) (vecs : List Vec)
    (projectB : Vec → Vec) (applyFwd : SlateExpr → Vec → Vec)
    (normalize : Vec → Vec) (forward : SlateExpr) : Bool :=
  (createSchurNullspace handleZero vecs projectB applyFwd normalize forward).isSome

/-! ## Concrete elements and instances used by the witnesses -/

/-- A lowest-order Raviart-Thomas element: H(div), vector valued. -/
def elemRT1 : UflElem :=
  { family := "Raviart-Thomas", sobolev := "HDiv", valueShape := [2],
    degree := Degree.single 1 }

/-- A piecewise-constant discontinuous element: L2, scalar. -/
def elemDG0 : UflElem :=
  { family := "Discontinuous Lagrange", sobolev := "L2", valueShape := [],
    degree := Degree.single 0 }

/-- A continuous Lagrange element: neither `HDiv` nor `L2`. -/
def elemCG1 : UflElem :=
  { family := "Lagrange", sobolev := "H1", valueShape := [],
    degree := Degree.single 1 }

/-- The result of `hybSetup` on the RT1 x DG0 pair, non-extruded. -/
def hybSetupExample : HybSetup :=
  { vidx := 0, pidx := 1, traceFamily := "HDiv Trace",
    tdeg := Degree.single 0, Atilde := hybAtilde, Kexpr := hybK false,
    warned := false, SrhsExpr := hybSrhs false, Sexpr := hybSchurComp false,
    SassembleBCs := hybTraceBCs false, nsForward := hybNsForward false,
    uRec := hybURec 0 1, sigmaRec := hybSigmaRec 0 1 }

/-- An HDiv Trace element for the third slot of the SC mixed space. -/
def elemTrace : UflElem :=
  { family := "HDiv Trace", sobolev := "L2", valueShape := [],
    degree := Degree.single 0 }

/-- The result of `scSetup` on a valid three-space layout with no supplied
boundary conditions. -/
def scSetupExample : SCSetup :=
  { warned := false, traceBCs := [], Sexpr := scS, SassembleBCs := [],
    rhsThunkExpr := scRhsThunk, uExpr := scUExpr, qExpr := scQExpr }

/-- Numeric services that expose the vector the trace system is actually
solved with: the solver hands back its right-hand side, and the expression
evaluator returns `[0]` for every symbolic expression. -/
def scOpsCx : SCOps :=
  { evalV := fun _ _ => [0],
    solveNZ := fun _ r _ => r,
    solveZ := fun _ r => r }

/-- A concrete initialized SC state with zero initial guess. -/
def scStCx : SCState :=
  { coeffs := 0, Smat := 0, guessNonzero := false, lamPrev := [] }

/-- A supplied strong boundary condition with a nonzero value, not on the
SC trace space (its space name differs from `"trace"`). -/
def bcSupplied : BC := ⟨"TraceSpace", BCArg.const 5, "1"⟩

/-- A supplied strong boundary condition on the SC trace space. -/
def bcOnTrace : BC := ⟨"trace", BCArg.func "gfun", "1"⟩

/-- A concrete deterministic matrix-assembly service. -/
def evMZero : SlateExpr → Nat → Int := fun _ _ => 0

/-- A concrete SC state satisfying the initialized-and-unchanged
invariant for `evMZero`. -/
def scStW : SCState :=
  { coeffs := 0, Smat := 0, guessNonzero := false, lamPrev := [] }

/-- A concrete hybridization state satisfying the
initialized-and-unchanged invariant for `evMZero`. -/
def hybStW : HybState :=
  { coeffs := 0, Smat := 0, Mmat := 0, guessNonzero := false, lamPrev := [],
    method := "L2", vidx := 0, pidx := 1, extruded := false }

/-! ## Helper lemmas -/

/-- `isErr` characterization. -/
theorem isErr_iff (x : Except InitError α) :
    isErr x = true ↔ ∃ e, x = Except.error e := by
  cases x <;> simp [isErr]

/-- Any successful `scSetup` result is the record built from the symbolic
constants and the processed boundary conditions. -/
theorem scSetup_ok_elim (impl : Bool) (W : List UflElem) (bcs : List BC)
    (r : SCSetup) (h : scSetup impl W bcs = Except.ok r) :
    ∃ tbcs, scProcessBCs bcs = Except.ok tbcs ∧
      r = { warned := !bcs.isEmpty, traceBCs := tbcs, Sexpr := scS,
            SassembleBCs := tbcs, rhsThunkExpr := scRhsThunk,
            uExpr := scUExpr, qExpr := scQExpr } := by
  unfold scSetup at h
  split at h
  · exact Except.noConfusion h
  · split at h
    · split at h
      · split at h
        next tbcs heq =>
          injection h with h2
          exact ⟨tbcs, heq, h2.symm⟩
        next e heq => exact Except.noConfusion h
      · exact Except.noConfusion h
    · exact Except.noConfusion h

/-- Any successful `hybSetup` result is the record built from the symbolic
constants, the assigned roles and the H(div) element. -/
theorem hybSetup_ok_elim (impl : Bool) (V : List UflElem) (rbcs : List BC)
    (ex : Bool) (r : HybSetup) (h : hybSetup impl V rbcs ex = Except.ok r) :
    ∃ vidx pidx Wv, assignRoles V = Except.ok (some vidx, some pidx) ∧
      V[vidx]? = some Wv ∧
      r = { vidx := vidx, pidx := pidx, traceFamily := "HDiv Trace",
            tdeg := traceDegree Wv.family Wv.degree, Atilde := hybAtilde,
            Kexpr := hybK ex, warned := !rbcs.isEmpty, SrhsExpr := hybSrhs ex,
            Sexpr := hybSchurComp ex, SassembleBCs := hybTraceBCs ex,
            nsForward := hybNsForward ex, uRec := hybURec vidx pidx,
            sigmaRec := hybSigmaRec vidx pidx } := by
  unfold hybSetup at h
  split at h
  · exact Except.noConfusion h
  · split at h
    · exact Except.noConfusion h
    · split at h
      · exact Except.noConfusion h
      · split at h
        next e heq => exact Except.noConfusion h
        next vidx pidx heq =>
          split at h
          next Wv heq2 =>
            injection h with h2
            exact ⟨vidx, pidx, Wv, heq, heq2, h2.symm⟩
          next heq2 => exact Except.noConfusion h
        next p heq hne => exact Except.noConfusion h

/-- The concrete RT1 x DG0 run of `hybSetup` used by the witnesses. -/
theorem hybSetupExampleEq :
    hybSetup true [elemRT1, elemDG0] [] false = Except.ok hybSetupExample := rfl

/-- The concrete three-space run of `scSetup` used by the witnesses. -/
theorem scSetupExampleEq :
    scSetup true [elemDG0, elemDG0, elemTrace] [] = Except.ok scSetupExample := rfl

/-- If the role-assignment loop finishes with `vidx = some v`, then either
the accumulator already held `some v`, or the element at offset `v`
(counting from the loop's start index) has Sobolev space `HDiv`. -/
theorem assignRolesAux_hdiv :
    ∀ (V : List UflElem) (i : Nat) (acc : Option Nat × Option Nat)
      (res : Option Nat × Option Nat),
      assignRolesAux i V acc = Except.ok res →
      ∀ v, res.1 = some v →
        acc.1 = some v ∨
        ∃ k e, V[k]? = some e ∧ e.sobolev = "HDiv" ∧ v = i + k := by
  intro V
  induction V with
  | nil =>
    intro i acc res h v hv
    simp only [assignRolesAux] at h
    injection h with h2
    subst h2
    exact Or.inl hv
  | cons Vi rest ih =>
    intro i acc res h v hv
    unfold assignRolesAux at h
    by_cases h1 : Vi.sobolev = "HDiv"
    · rw [if_pos h1] at h
      rcases ih (i + 1) (some i, acc.2) res h v hv with hl | ⟨k, e, hk, he, hveq⟩
      · have hiv : i = v := by
          have := hl
          simp at this
          exact this
        exact Or.inr ⟨0, Vi, by simp, h1, by omega⟩
      · exact Or.inr ⟨k + 1, e, by simpa using hk, he, by omega⟩
    · rw [if_neg h1] at h
      by_cases h2 : Vi.sobolev = "L2"
      · rw [if_pos h2] at h
        rcases ih (i + 1) (acc.1, some i) res h v hv with hl | ⟨k, e, hk, he, hveq⟩
        · exact Or.inl hl
        · exact Or.inr ⟨k + 1, e, by simpa using hk, he, by omega⟩
      · rw [if_neg h2] at h
        exact Except.noConfusion h

/-- The H(div) role index returned by `assignRoles` points at an element
whose Sobolev space is `HDiv`. -/
theorem assignRoles_hdiv (V : List UflElem) (vidx pidx : Nat)
    (h : assignRoles V = Except.ok (some vidx, some pidx)) :
    ∃ e, V[vidx]? = some e ∧ e.sobolev = "HDiv" := by
  rcases assignRolesAux_hdiv V 0 (none, none) (some vidx, some pidx) h vidx rfl
    with hl | ⟨k, e, hk, he, hveq⟩
  · exact absurd hl (by simp)
  · have hvk : vidx = k := by omega
    subst hvk
    exact ⟨e, hk, he⟩

/-! ## Claims -/

/-- Claim C1, counterexample: in the reduced-operator expression `S` built
at line 87 the symbolic per-element inverse of the full 2x2 block `M`
itself occurs, contradicting "only per-element dense inverses of A and of
the local Schur complement Se ever occur - never an inverse of the 2x2
block M itself". -/
theorem claim1_counterexample :
    occursIn (SlateExpr.inv scM) scS = true ∧
    scM = SlateExpr.tensor (Form.subBlock [0, 1] [0, 1]) ∧
    scS = SlateExpr.sub scJ
      (SlateExpr.mul (SlateExpr.mul scL (SlateExpr.inv scM)) scK) :=
  ⟨rfl, rfl, rfl⟩

/-- Claim C1 (amended): initialize builds the reduced operator
symbolically as S = J - L*M.inv*K over the stated blocks, where the only
inverse occurring in S (and in the reduced right-hand-side thunk) is the
per-element dense inverse of the full 2x2 block M itself; the algebraic
expansion into inverses of A and of Se = E - D*A.inv*B appears only in
the reconstruction expressions. -/
theorem claim1_amended :
    scS = SlateExpr.sub scJ
      (SlateExpr.mul (SlateExpr.mul scL (SlateExpr.inv scM)) scK) ∧
    scM = SlateExpr.tensor (Form.subBlock [0, 1] [0, 1]) ∧
    scK = SlateExpr.tensor (Form.subBlock [0, 1] [2]) ∧
    scL = SlateExpr.tensor (Form.subBlock [2] [0, 1]) ∧
    scJ = SlateExpr.tensor (Form.subBlock [2] [2]) ∧
    invertedSubterms scS = [scM] ∧
    invertedSubterms scRhsThunk = [scM] ∧
    scSe = SlateExpr.sub scE
      (SlateExpr.mul (SlateExpr.mul scD (SlateExpr.inv scA)) scB) ∧
    occursIn (SlateExpr.inv scSe) scUExpr = true ∧
    occursIn (SlateExpr.inv scA) scUExpr = true ∧
    occursIn (SlateExpr.inv scA) scQExpr = true :=
  ⟨rfl, rfl, rfl, rfl, rfl, rfl, rfl, rfl, rfl, rfl, rfl⟩

/-- Claim C2: for the 2-space hybridization layout, initialize builds the
reduced operator symbolically as S = K * Atilde.inv * K.T, where Atilde is
the original bilinear form with broken-space arguments and K is the jump
coupling over interior facets (dS_h plus dS_v when the mesh is extruded,
dS otherwise), and S is assembled with zero Dirichlet conditions on the
trace space at on_boundary (plus bottom and top for extruded meshes). -/
theorem claim2 :
    (∀ (impl : Bool) (V : List UflElem) (rbcs : List BC) (ex : Bool)
        (r : HybSetup), hybSetup impl V rbcs ex = Except.ok r →
        r.Sexpr = SlateExpr.mul
            (SlateExpr.mul r.Kexpr (SlateExpr.inv r.Atilde))
            (SlateExpr.transpose r.Kexpr) ∧
        r.Atilde = SlateExpr.tensor Form.brokenReplace ∧
        r.Kexpr = hybK ex ∧
        r.SassembleBCs = hybTraceBCs ex) ∧
    hybK true = SlateExpr.tensor (Form.jumpCoupling [Measure.dS_h, Measure.dS_v]) ∧
    hybK false = SlateExpr.tensor (Form.jumpCoupling [Measure.dS]) ∧
    hybTraceBCs true =
      [⟨"TraceSpace", BCArg.const 0, "on_boundary"⟩,
       ⟨"TraceSpace", BCArg.const 0, "bottom"⟩,
       ⟨"TraceSpace", BCArg.const 0, "top"⟩] ∧
    hybTraceBCs false = [⟨"TraceSpace", BCArg.const 0, "on_boundary"⟩] := by
  refine ⟨?_, rfl, rfl, rfl, rfl⟩
  intro impl V rbcs ex r h
  obtain ⟨vidx, pidx, Wv, _, _, hr⟩ := hybSetup_ok_elim impl V rbcs ex r h
  subst hr
  exact ⟨rfl, rfl, rfl, rfl⟩

/-- Witness for C2 at the concrete RT1 x DG0 setup. -/
theorem claim2_witness :
    hybSetupExample.Sexpr = SlateExpr.mul
      (SlateExpr.mul hybSetupExample.Kexpr (SlateExpr.inv hybSetupExample.Atilde))
      (SlateExpr.transpose hybSetupExample.Kexpr) ∧
    hybSetupExample.SassembleBCs = hybTraceBCs false :=
  ⟨(claim2.1 true [elemRT1, elemDG0] [] false hybSetupExample hybSetupExampleEq).1,
   (claim2.1 true [elemRT1, elemDG0] [] false hybSetupExample hybSetupExampleEq).2.2.2⟩

/-- Claim C3, counterexample: on an apply call with trace residual
component v3 = [5] and numeric services under which the symbolic
expression -L*M.inv*AssembledVector(v1v2) evaluates to [0] (and the trace
solver hands back its right-hand side, so the returned multiplier reveals
the vector the reduced system was actually solved with), the reduced
system is solved with [5], not with the evaluation [0] of the symbolic
expression: the right-hand side is v3 plus that evaluation, so the claim
as stated is false for the static-condensation layout. -/
theorem claim3_counterexample :
    (scApply scOpsCx scStCx [0] [0] [5]).1.2.2 = [5] ∧
    scOpsCx.evalV scRhsThunk (scEnv [0] [0] [5] [] []) = [0] ∧
    ([5] : Vec) ≠ [0] :=
  ⟨rfl, rfl, by decide⟩

/-- Claim C3 (amended): on every apply call the reduced right-hand side is
freshly evaluated from the symbolic expression before the trace solve: for
hybridization the solve right-hand side is exactly the evaluation of
K * Atilde.inv * AssembledVector(broken_residual); for static condensation
the fresh evaluation of (-L) * M.inv * AssembledVector(v1v2) over the
retained residual components is added to the trace residual component v3
to form the right-hand side.  The last conjunct binds the hybridization
outputs to the trace solve's input: the multiplier `lam` consumed by both
reconstruction evaluations is the solve applied to `srhs`, the fresh
evaluation of the symbolic expression over the current broken residual,
with nothing added to it. -/
theorem claim3_amended :
    scRhsThunk = SlateExpr.mul
      (SlateExpr.mul (SlateExpr.neg scL) (SlateExpr.inv scM))
      (SlateExpr.assembledVector "v1v2" none) ∧
    (∀ ex, hybSrhs ex = SlateExpr.mul
        (SlateExpr.mul (hybK ex) (SlateExpr.inv hybAtilde))
        (SlateExpr.assembledVector "broken_residual" none)) ∧
    (∀ (ops : SCOps) (st : SCState) (x1 x2 x3 : Vec),
        (scApply ops st x1 x2 x3).2.get? 1 =
          some (Step.assembleSlate scRhsThunk "r_lambda_thunk") ∧
        (scApply ops st x1 x2 x3).2.get? 3 = some (Step.kspSolve "trace") ∧
        (scApply ops st x1 x2 x3).1.2.2 =
          (let rthunk := ops.evalV scRhsThunk (scEnv x1 x2 x3 [] [])
           if st.guessNonzero then
             ops.solveNZ st.Smat (vadd x3 rthunk) st.lamPrev
           else ops.solveZ st.Smat (vadd x3 rthunk))) ∧
    (∀ (hops : HybOps) (hst : HybState) (x0 x1 : Vec),
        (hybApply hops hst x0 x1).2.get? 4 =
          some (Step.assembleSlate (hybSrhs hst.extruded) "schur_rhs") ∧
        (hybApply hops hst x0 x1).2.get? 5 = some (Step.kspSolve "trace") ∧
        (hybApply hops hst x0 x1).1 =
          (let urv := if hst.vidx = 0 then x0 else x1
           let brp := if hst.pidx = 0 then x0 else x1
           let primal := hops.massSolve hst.Mmat urv
           let brv := hops.evalF "broken_hdiv_residual"
             (hybEnv [] [] [] [] [] primal)
           let br0 := if hst.vidx = 0 then brv else brp
           let br1 := if hst.vidx = 0 then brp else brv
           let srhs := hops.evalV (hybSrhs hst.extruded)
             (hybEnv br0 br1 [] [] [] primal)
           let lam := if hst.guessNonzero then
               hops.solveNZ hst.Smat srhs hst.lamPrev
             else hops.solveZ hst.Smat srhs
           let u := hops.evalV (hybURec hst.vidx hst.pidx)
             (hybEnv br0 br1 [] [] lam primal)
           let sol0 := if hst.pidx = 0 then u else []
           let sol1 := if hst.pidx = 1 then u else []
           let sigma := hops.evalV (hybSigmaRec hst.vidx hst.pidx)
             (hybEnv br0 br1 sol0 sol1 lam primal)
           let s0 := if hst.vidx = 0 then sigma
             else if hst.pidx = 0 then u else []
           let s1 := if hst.vidx = 1 then sigma
             else if hst.pidx = 1 then u else []
           let sigmaConf :=
             if hst.method = "average" then hops.average sigma
             else hops.projSolve hst.Mmat
               (hops.evalF "projection_rhs" (hybEnv br0 br1 s0 s1 lam primal))
           (if hst.vidx = 0 then sigmaConf else u,
            if hst.vidx = 0 then u else sigmaConf))) :=
  ⟨rfl, fun ex => rfl, fun ops st x1 x2 x3 => ⟨rfl, rfl, rfl⟩,
   fun hops hst x0 x1 => ⟨rfl, rfl, rfl⟩⟩

/-- Claim C4: reconstruction is two sequential element-local solves, in a
fixed order in which the second uses the first's result: for static
condensation u = Se.inv * (v2 - D*A.inv*v1 - Sf*lambda) with
Sf = F - D*A.inv*C is assembled before q = A.inv * (v1 - B*u - C*lambda);
for hybridization u = M.inv * (f - C*A.inv*g - R*lambda) with
M = D - C*A.inv*B and R = K1.T - C*A.inv*K0.T is assembled before
sigma = A.inv * (g - B*u - K0.T*lambda). -/
theorem claim4 :
    scUExpr = SlateExpr.mul (SlateExpr.inv scSe)
      (SlateExpr.sub
        (SlateExpr.sub avV2
          (SlateExpr.mul (SlateExpr.mul scD (SlateExpr.inv scA)) avV1))
        (SlateExpr.mul scSf avLambda)) ∧
    scSf = SlateExpr.sub scF
      (SlateExpr.mul (SlateExpr.mul scD (SlateExpr.inv scA)) scC) ∧
    scQExpr = SlateExpr.mul (SlateExpr.inv scA)
      (SlateExpr.sub (SlateExpr.sub avV1 (SlateExpr.mul scB avU))
        (SlateExpr.mul scC avLambda)) ∧
    occursIn avU scQExpr = true ∧
    (∀ (ops : SCOps) (st : SCState) (x1 x2 x3 : Vec),
        (scApply ops st x1 x2 x3).2.get? 4 =
          some (Step.assembleSlate scUExpr "u_h") ∧
        (scApply ops st x1 x2 x3).2.get? 5 =
          some (Step.assembleSlate scQExpr "q_h") ∧
        (scApply ops st x1 x2 x3).1.1 =
          ops.evalV scQExpr
            (scEnv x1 x2 x3 (scApply ops st x1 x2 x3).1.2.1
              (scApply ops st x1 x2 x3).1.2.2)) ∧
    (∀ vidx pidx,
        hybURec vidx pidx =
          (let A := SlateExpr.tensor (Form.splitMixed vidx vidx)
           let B := SlateExpr.tensor (Form.splitMixed vidx pidx)
           let C := SlateExpr.tensor (Form.splitMixed pidx vidx)
           let D := SlateExpr.tensor (Form.splitMixed pidx pidx)
           let K0 := SlateExpr.tensor (Form.splitTrace 0 vidx)
           let K1 := SlateExpr.tensor (Form.splitTrace 0 pidx)
           let g := SlateExpr.assembledVector "broken_residual" (some vidx)
           let f := SlateExpr.assembledVector "broken_residual" (some pidx)
           let lambdar := SlateExpr.assembledVector "trace_solution" none
           SlateExpr.mul
             (SlateExpr.inv (SlateExpr.sub D
               (SlateExpr.mul (SlateExpr.mul C (SlateExpr.inv A)) B)))
             (SlateExpr.sub
               (SlateExpr.sub f
                 (SlateExpr.mul (SlateExpr.mul C (SlateExpr.inv A)) g))
               (SlateExpr.mul
                 (SlateExpr.sub (SlateExpr.transpose K1)
                   (SlateExpr.mul (SlateExpr.mul C (SlateExpr.inv A))
                     (SlateExpr.transpose K0)))
                 lambdar))) ∧
        hybSigmaRec vidx pidx =
          (let A := SlateExpr.tensor (Form.splitMixed vidx vidx)
           let B := SlateExpr.tensor (Form.splitMixed vidx pidx)
           let K0 := SlateExpr.tensor (Form.splitTrace 0 vidx)
           let g := SlateExpr.assembledVector "broken_residual" (some vidx)
           let lambdar := SlateExpr.assembledVector "trace_solution" none
           SlateExpr.mul (SlateExpr.inv A)
             (SlateExpr.sub
               (SlateExpr.sub g
                 (SlateExpr.mul B
                   (SlateExpr.assembledVector "broken_solution" (some pidx))))
               (SlateExpr.mul (SlateExpr.transpose K0) lambdar)))) ∧
    occursIn (SlateExpr.assembledVector "broken_solution" (some 1))
      (hybSigmaRec 0 1) = true ∧
    (∀ (hops : HybOps) (hst : HybState) (x0 x1 : Vec),
        (hybApply hops hst x0 x1).2.get? 6 =
          some (Step.assembleSlate (hybURec hst.vidx hst.pidx)
            "broken_solution_scalar") ∧
        (hybApply hops hst x0 x1).2.get? 7 =
          some (Step.assembleSlate (hybSigmaRec hst.vidx hst.pidx)
            "broken_solution_hdiv")) :=
  ⟨rfl, rfl, rfl, rfl, fun ops st x1 x2 x3 => ⟨rfl, rfl, rfl⟩,
   fun vidx pidx => ⟨rfl, rfl⟩, rfl,
   fun hops hst x0 x1 => ⟨rfl, rfl⟩⟩

/-- Claim C5: applyTranspose of either preconditioner always fails with an
explicit NotImplementedError carrying the unsupported-operation message;
an `Except.ok` value (which would carry a written output vector) is never
produced. -/
theorem claim5 (x y : Vec) :
    scApplyTranspose x y =
      Except.error
        (PCError.notImplemented "Transpose application is not implemented.") ∧
    hybApplyTranspose x y =
      Except.error
        (PCError.notImplemented "The transpose application is not implemented.") :=
  ⟨rfl, rfl⟩

/-- Claim C6: initialize raises a fatal error whenever the context is not
an ImplicitMatrixContext, the mixed space has the wrong number of
component spaces (not exactly 3 for static condensation, not exactly 2 for
hybridization), the third SC space is not HDiv Trace, both hybridization
spaces are vector valued, or neither hybridization space is classifiable
as H(div) vs L2. -/
theorem claim6 :
    (∀ (W : List UflElem) (bcs : List BC),
        scSetup false W bcs = Except.error InitError.notImplicitContext) ∧
    (∀ (impl : Bool) (W : List UflElem) (bcs : List BC), W.length ≠ 3 →
        isErr (scSetup impl W bcs) = true) ∧
    (∀ (impl : Bool) (w0 w1 w2 : UflElem) (bcs : List BC),
        w2.family ≠ "HDiv Trace" →
        isErr (scSetup impl [w0, w1, w2] bcs) = true) ∧
    (∀ (V : List UflElem) (bcs : List BC) (ex : Bool),
        hybSetup false V bcs ex = Except.error InitError.notImplicitContext) ∧
    (∀ (impl : Bool) (V : List UflElem) (bcs : List BC) (ex : Bool),
        V.length ≠ 2 → isErr (hybSetup impl V bcs ex) = true) ∧
    (∀ (impl : Bool) (a b : UflElem) (bcs : List BC) (ex : Bool),
        a.valueShape ≠ [] → b.valueShape ≠ [] →
        isErr (hybSetup impl [a, b] bcs ex) = true) ∧
    (∀ (impl : Bool) (a b : UflElem) (bcs : List BC) (ex : Bool),
        a.sobolev ≠ "HDiv" → a.sobolev ≠ "L2" → b.sobolev ≠ "HDiv" →
        b.sobolev ≠ "L2" → isErr (hybSetup impl [a, b] bcs ex) = true) := by
  refine ⟨fun W bcs => rfl, ?_, ?_, fun V bcs ex => rfl, ?_, ?_, ?_⟩
  · intro impl W bcs hW
    cases impl
    · rfl
    · rcases W with _ | ⟨a, _ | ⟨b, _ | ⟨c, _ | ⟨d, tl⟩⟩⟩⟩
      · rfl
      · rfl
      · rfl
      · exact absurd rfl hW
      · rfl
  · intro impl w0 w1 w2 bcs hfam
    cases impl
    · rfl
    · simp [scSetup, hfam, isErr]
  · intro impl V bcs ex hV
    cases impl
    · rfl
    · simp [hybSetup, hV, isErr]
  · intro impl a b bcs ex h1 h2
    cases impl
    · rfl
    · have ha : a.valueShape.isEmpty = false := by
        cases hh : a.valueShape with
        | nil => exact absurd hh h1
        | cons x xs => rfl
      have hb : b.valueShape.isEmpty = false := by
        cases hh : b.valueShape with
        | nil => exact absurd hh h2
        | cons x xs => rfl
      simp [hybSetup, ha, hb, isErr]
  · intro impl a b bcs ex h1 h2 h3 h4
    cases impl
    · rfl
    · have har : assignRoles [a, b] = Except.error InitError.sobolevAssert := by
        simp [assignRoles, assignRolesAux, h1, h2]
      cases hall : ([a, b].all fun Vi => !Vi.valueShape.isEmpty) with
      | true => simp [hybSetup, hall, isErr]
      | false => simp [hybSetup, hall, har, isErr]

/-- Witness for C6 at concrete bad inputs: a non-implicit context, an
empty SC space list, a wrong trace family, a one-space hybridization
layout, two vector-valued spaces, and two unclassifiable spaces. -/
theorem claim6_witness :
    scSetup false [] [] = Except.error InitError.notImplicitContext ∧
    isErr (scSetup true [] []) = true ∧
    isErr (scSetup true [elemDG0, elemDG0, elemDG0] []) = true ∧
    hybSetup false [] [] false = Except.error InitError.notImplicitContext ∧
    isErr (hybSetup true [elemRT1] [] false) = true ∧
    isErr (hybSetup true [elemRT1, elemRT1] [] false) = true ∧
    isErr (hybSetup true [elemCG1, elemCG1] [] false) = true :=
  ⟨claim6.1 [] [],
   claim6.2.1 true [] [] (by decide),
   claim6.2.2.1 true elemDG0 elemDG0 elemDG0 [] (by decide),
   claim6.2.2.2.1 [] [] false,
   claim6.2.2.2.2.1 true [elemRT1] [] false (by decide),
   claim6.2.2.2.2.2.1 true elemRT1 elemRT1 [] false (by decide) (by decide),
   claim6.2.2.2.2.2.2 true elemCG1 elemCG1 [] false (by decide) (by decide)
     (by decide) (by decide)⟩

/-- Claim C7, counterexample: the operator handed to
`create_schur_nullspace` at line 382 is `-K * Atilde`, which contains no
inverse node at all; it is not the forward elimination operator
`-K * Atilde.inv` the claim states. -/
theorem claim7_counterexample :
    hybNsForward false = SlateExpr.mul (SlateExpr.neg (hybK false)) hybAtilde ∧
    invertedSubterms (hybNsForward false) = [] ∧
    hybNsForward false ≠
      SlateExpr.mul (SlateExpr.neg (hybK false)) (SlateExpr.inv hybAtilde) ∧
    hybSetupExample.nsForward = hybNsForward false :=
  ⟨rfl, rfl, by decide, rfl⟩

/-- Claim C7 (amended): the nullspace transfer returns no nullspace (and
nothing is attached) exactly when the original operator's nullspace handle
is zero; otherwise each basis vector is copied into the unbroken space,
projected into the broken representation, mapped by the operator
`-K * Atilde` built at line 382 (not by `-K * Atilde.inv`), and the
transferred vectors are normalized and attached to the reduced
operator. -/
theorem claim7_amended (handleZero : Bool) (vecs : List Vec)
    (projectB : Vec → Vec) (applyFwd : SlateExpr → Vec → Vec)
    (normalize : Vec → Vec) (forward : SlateExpr) :
    (createSchurNullspace handleZero vecs projectB applyFwd normalize forward
        = none ↔ handleZero = true) ∧
    createSchurNullspace false vecs projectB applyFwd normalize forward =
      some ((vecs.map (fun v => applyFwd forward (projectB v))).map normalize) ∧
    hybNullspaceAttached handleZero vecs projectB applyFwd normalize forward =
      !handleZero ∧
    (∀ ex, hybNsForward ex =
        SlateExpr.mul (SlateExpr.neg (hybK ex)) hybAtilde) ∧
    (∀ (impl : Bool) (V : List UflElem) (rbcs : List BC) (ex : Bool)
        (r : HybSetup), hybSetup impl V rbcs ex = Except.ok r →
        r.nsForward = hybNsForward ex) := by
  refine ⟨?_, rfl, ?_, fun ex => rfl, ?_⟩
  · cases handleZero <;> simp [createSchurNullspace]
  · cases handleZero <;> rfl
  · intro impl V rbcs ex r h
    obtain ⟨vidx, pidx, Wv, _, _, hr⟩ := hybSetup_ok_elim impl V rbcs ex r h
    subst hr
    rfl

/-- Witness for C7 (amended) at a zero handle and at the concrete RT1 x
DG0 setup. -/
theorem claim7_amended_witness :
    createSchurNullspace true [[1]] id (fun _ v => v) id (hybNsForward false)
      = none ∧
    hybSetupExample.nsForward = hybNsForward false :=
  ⟨(claim7_amended true [[1]] id (fun _ v => v) id (hybNsForward false)).1.mpr
     rfl,
   (claim7_amended true [[1]] id (fun _ v => v) id (hybNsForward false)).2.2.2.2
     true [elemRT1, elemDG0] [] false hybSetupExample hybSetupExampleEq⟩

/-- Claim C8, counterexample: with a supplied strong boundary condition of
nonzero value, `HybridizationPC.initialize` warns (`warned = true`) and
proceeds, but the reduced operator is assembled with the fixed homogeneous
trace conditions only; the supplied condition is not among them, so the
supplied conditions are not "applied on the trace space" as claimed. -/
theorem claim8_counterexample :
    (hybSetup true [elemRT1, elemDG0] [bcSupplied] false).map
        (fun r => (r.warned, r.SassembleBCs)) =
      Except.ok (true, [⟨"TraceSpace", BCArg.const 0, "on_boundary"⟩]) ∧
    bcSupplied ∉ [(⟨"TraceSpace", BCArg.const 0, "on_boundary"⟩ : BC)] :=
  ⟨rfl, by decide⟩

/-- Claim C8 (amended): when strong boundary conditions are supplied, both
classes emit a non-fatal warning; `HybridizationPC` proceeds but ignores
the supplied conditions, always assembling the reduced operator with its
fixed homogeneous trace conditions; `HybridStaticCondensationPC` proceeds
only when every supplied condition already lives on the trace space
(asserting fatally otherwise), re-imposing each on the duplicated trace
space and assembling the reduced operator with those. -/
theorem claim8_amended :
    (∀ (impl : Bool) (V : List UflElem) (rbcs : List BC) (ex : Bool)
        (r : HybSetup), hybSetup impl V rbcs ex = Except.ok r →
        r.warned = !rbcs.isEmpty ∧ r.SassembleBCs = hybTraceBCs ex) ∧
    (∀ (W : List UflElem) (bcs : List BC) (r : SCSetup),
        scSetup true W bcs = Except.ok r →
        r.warned = !bcs.isEmpty ∧ r.SassembleBCs = r.traceBCs ∧
        scProcessBCs bcs = Except.ok r.traceBCs) ∧
    (∀ (bc : BC), bc.space = "trace" →
        scProcessBCs [bc] =
          Except.ok [⟨"Tr", transferBCArg bc.arg, bc.subdomain⟩]) ∧
    (∀ (bcs : List BC), (∃ bc ∈ bcs, bc.space ≠ "trace") →
        isErr (scProcessBCs bcs) = true) := by
  refine ⟨?_, ?_, ?_, ?_⟩
  · intro impl V rbcs ex r h
    obtain ⟨vidx, pidx, Wv, _, _, hr⟩ := hybSetup_ok_elim impl V rbcs ex r h
    subst hr
    exact ⟨rfl, rfl⟩
  · intro W bcs r h
    obtain ⟨tbcs, htb, hr⟩ := scSetup_ok_elim true W bcs r h
    subst hr
    exact ⟨rfl, rfl, htb⟩
  · intro bc h
    simp [scProcessBCs, h]
  · intro bcs
    induction bcs with
    | nil =>
      rintro ⟨bc, hmem, _⟩
      exact absurd hmem (List.not_mem_nil bc)
    | cons hd tl ih =>
      rintro ⟨bc, hmem, hsp⟩
      by_cases hsp2 : hd.space = "trace"
      · rcases List.mem_cons.mp hmem with heq | hmem2
        · subst heq
          exact absurd hsp2 hsp
        · obtain ⟨e, he⟩ := (isErr_iff _).mp (ih ⟨bc, hmem2, hsp⟩)
          simp [scProcessBCs, hsp2, he, isErr]
      · simp [scProcessBCs, hsp2, isErr]

/-- Witness for C8 (amended) at concrete inputs: the RT1 x DG0
hybridization setup with no supplied conditions, the valid SC setup, a
supplied condition on the trace space, and one off the trace space. -/
theorem claim8_amended_witness :
    (hybSetupExample.warned = !(List.isEmpty ([] : List BC)) ∧
     hybSetupExample.SassembleBCs = hybTraceBCs false) ∧
    (scSetupExample.warned = !(List.isEmpty ([] : List BC)) ∧
     scSetupExample.SassembleBCs = scSetupExample.traceBCs ∧
     scProcessBCs [] = Except.ok scSetupExample.traceBCs) ∧
    scProcessBCs [bcOnTrace] =
      Except.ok [⟨"Tr", transferBCArg bcOnTrace.arg, bcOnTrace.subdomain⟩] ∧
    isErr (scProcessBCs [bcSupplied]) = true :=
  ⟨claim8_amended.1 true [elemRT1, elemDG0] [] false hybSetupExample
     hybSetupExampleEq,
   claim8_amended.2.1 [elemDG0, elemDG0, elemTrace] [] scSetupExample
     scSetupExampleEq,
   claim8_amended.2.2.1 bcOnTrace rfl,
   claim8_amended.2.2.2 [bcSupplied] ⟨bcSupplied, by decide, by decide⟩⟩

/-- Claim C9: for an initialized preconditioner whose coefficients have
not changed (its reduced-matrix values already equal the deterministic
re-evaluation of the same symbolic expression at the current coefficient
state), update changes no state at all, and update followed by apply gives
the same output as apply alone, for both classes. -/
theorem claim9 :
    (∀ (evM : SlateExpr → Nat → Int) (st : SCState),
        st.Smat = evM scS st.coeffs →
        scUpdate evM st = st ∧
        ∀ (ops : SCOps) (x1 x2 x3 : Vec),
          scApply ops (scUpdate evM st) x1 x2 x3 = scApply ops st x1 x2 x3) ∧
    (∀ (evM : SlateExpr → Nat → Int) (st : HybState),
        st.Smat = evM (hybSchurComp st.extruded) st.coeffs →
        hybUpdate evM st = st ∧
        ∀ (hops : HybOps) (x0 x1 : Vec),
          hybApply hops (hybUpdate evM st) x0 x1 = hybApply hops st x0 x1) := by
  constructor
  · intro evM st h
    have hupd : scUpdate evM st = st := by
      cases st with
      | mk c s g l =>
        dsimp at h
        simp only [scUpdate]
        rw [← h]
    exact ⟨hupd, fun ops x1 x2 x3 => by rw [hupd]⟩
  · intro evM st h
    have hupd : hybUpdate evM st = st := by
      cases st with
      | mk c s m g l me vi pi ex =>
        dsimp at h
        simp only [hybUpdate]
        rw [← h]
    exact ⟨hupd, fun hops x0 x1 => by rw [hupd]⟩

/-- Witness for C9 at concrete initialized states satisfying the
unchanged-coefficients invariant. -/
theorem claim9_witness :
    scUpdate evMZero scStW = scStW ∧ hybUpdate evMZero hybStW = hybStW :=
  ⟨(claim9.1 evMZero scStW rfl).1, (claim9.2 evMZero hybStW rfl).1⟩

/-- Claim C10: `HybridizationPC.initialize` always constructs the trace
space with family HDiv Trace and derives its degree from the H(div)
space's element: the degree unchanged for Brezzi-Douglas-Marini,
(h - 1, v - 1) for a tensor-product tuple degree, and degree - 1
otherwise. -/
theorem claim10 :
    (∀ d, traceDegree "Brezzi-Douglas-Marini" d = d) ∧
    (∀ (fam : String) (h v : Int), fam ≠ "Brezzi-Douglas-Marini" →
        traceDegree fam (Degree.pair h v) = Degree.pair (h - 1) (v - 1)) ∧
    (∀ (fam : String) (n : Int), fam ≠ "Brezzi-Douglas-Marini" →
        traceDegree fam (Degree.single n) = Degree.single (n - 1)) ∧
    (∀ (impl : Bool) (V : List UflElem) (rbcs : List BC) (ex : Bool)
        (r : HybSetup), hybSetup impl V rbcs ex = Except.ok r →
        r.traceFamily = "HDiv Trace" ∧
        ∃ Wv, V[r.vidx]? = some Wv ∧ Wv.sobolev = "HDiv" ∧
          r.tdeg = traceDegree Wv.family Wv.degree) := by
  refine ⟨fun d => by simp [traceDegree], ?_, ?_, ?_⟩
  · intro fam h v hf
    simp [traceDegree, hf]
  · intro fam n hf
    simp [traceDegree, hf]
  · intro impl V rbcs ex r hok
    obtain ⟨vidx, pidx, Wv, har, hget, hr⟩ := hybSetup_ok_elim impl V rbcs ex r hok
    subst hr
    obtain ⟨e, hge, hsob⟩ := assignRoles_hdiv V vidx pidx har
    rw [hget] at hge
    injection hge with hge
    rw [← hge] at hsob
    exact ⟨rfl, Wv, hget, hsob, rfl⟩

/-- Witness for C10 at concrete families and degrees and at the concrete
RT1 x DG0 setup. -/
theorem claim10_witness :
    traceDegree "Brezzi-Douglas-Marini" (Degree.single 2) = Degree.single 2 ∧
    traceDegree "Raviart-Thomas" (Degree.pair 2 3) = Degree.pair 1 2 ∧
    traceDegree "Raviart-Thomas" (Degree.single 3) = Degree.single 2 ∧
    hybSetupExample.traceFamily = "HDiv Trace" :=
  ⟨claim10.1 (Degree.single 2),
   claim10.2.1 "Raviart-Thomas" 2 3 (by decide),
   claim10.2.2.1 "Raviart-Thomas" 3 (by decide),
   (claim10.2.2.2 true [elemRT1, elemDG0] [] false hybSetupExample
      hybSetupExampleEq).1⟩
